import Mathlib

/-!
Verification of the V-League scheduler core against its specification.

This file gives a shallow embedding, in Lean 4, of the parts of the
scheduler that the checked claims talk about:

* the data model (`Team`, `Match`, `Schedule`, from `src/models/`),
* the soft-constraint evaluator (`src/constraints/soft_constraints.py`),
* the genetic operators (`src/ga/operators.py`),
* the round-robin seeder (`src/ga/initialization.py`, `src/ga/encoding.py`),
* the repairer (`src/ga/repair.py`),
* the configuration validator (`src/optimization/config.py`) and the
  elitism step of the driver (`src/optimization/ga_optimizer.py`).

Python conventions are rendered as follows: `float` scores become `ℚ`
(every arithmetic step the claims depend on is exact on the values
involved), `int` becomes `ℕ` (the quantities involved are non-negative),
`dict` becomes an association list, Python's stable `sorted` becomes the
stable insertion sort `sortStable`, and every call to the `random` module
becomes an explicit argument of the embedded function, so each theorem
quantifies over (or fixes) the random draws.
-/

/-- `src/models/team.py`: a team record.  Only the fields the core reads. -/
structure Team where
  id : Nat
  name : String
  short_name : String
  city : String
  home_stadium_id : Nat
deriving DecidableEq

/-- `src/models/match.py`: a match record (`match_date`/`match_time` are
`None` throughout the core and are omitted). -/
structure Match where
  id : Nat
  home_team_id : Nat
  away_team_id : Nat
  stadium_id : Nat
  round_number : Nat
deriving DecidableEq

/-- `Match.__eq__`: equality compares only the `id` field. -/
def Match.pyEq (m other : Match) : Bool :=
  m.id == other.id

/-- `Match.__hash__`: `hash(self.id)`; modelled as the hash of the id. -/
def Match.pyHash (m : Match) : UInt64 :=
  hash m.id

/-- `Match.involves_team`: `team_id in (self.home_team_id, self.away_team_id)`. -/
def Match.involves_team (m : Match) (team_id : Nat) : Bool :=
  team_id == m.home_team_id || team_id == m.away_team_id

/-- `src/models/schedule.py`: a schedule is a list of matches plus an
optional cached fitness. -/
structure Schedule where
  matches' : List Match
  fitness_score : Option ℚ := none
deriving DecidableEq

/-- `Schedule.get_matches_by_round`. -/
def Schedule.get_matches_by_round (s : Schedule) (round_number : Nat) : List Match :=
  s.matches'.filter (fun m => m.round_number == round_number)

/-- `Schedule.get_matches_by_team`. -/
def Schedule.get_matches_by_team (s : Schedule) (team_id : Nat) : List Match :=
  s.matches'.filter (fun m => m.involves_team team_id)

/-- `Schedule.get_total_rounds`: 0 on an empty schedule, else the max round. -/
def Schedule.get_total_rounds (s : Schedule) : Nat :=
  (s.matches'.map Match.round_number).foldr max 0

/-- The value copy of a match made by `Schedule.clone`. -/
def Match.copy (m : Match) : Match :=
  { id := m.id, home_team_id := m.home_team_id, away_team_id := m.away_team_id,
    stadium_id := m.stadium_id, round_number := m.round_number }

/-- `Schedule.clone`: matches are copied by value, the cached fitness is kept. -/
def Schedule.clone (s : Schedule) : Schedule :=
  { matches' := s.matches'.map Match.copy, fitness_score := s.fitness_score }

theorem Match.copy_eq (m : Match) : m.copy = m := rfl

theorem Schedule.clone_eq (s : Schedule) : s.clone = s := by
  have h : Match.copy = id := funext Match.copy_eq
  cases s with
  | mk ms fs => simp [Schedule.clone, h]

/-! ### Stable sorting (model of Python's `sorted`)

Python's `sorted(xs, key=k)` returns the ascending stable permutation of
`xs`.  `sortStable lt` is a stable insertion sort: `lt y x = true` means
`y` sorts strictly before `x`, and an element being inserted is placed
before every element it does not sort strictly after, which preserves the
original order of key-equal elements exactly as `sorted` does. -/

def insertStable {α : Type} (lt : α → α → Bool) (x : α) : List α → List α
  | [] => [x]
  | y :: ys => if lt y x then y :: insertStable lt x ys else x :: y :: ys

def sortStable {α : Type} (lt : α → α → Bool) : List α → List α
  | [] => []
  | x :: xs => insertStable lt x (sortStable lt xs)

theorem insertStable_perm {α : Type} (lt : α → α → Bool) (x : α) (l : List α) :
    (insertStable lt x l).Perm (x :: l) := by
  induction l with
  | nil => simp [insertStable]
  | cons y ys ih =>
    by_cases h : lt y x = true
    · simpa [insertStable, h] using ((ih.cons y).trans (List.Perm.swap x y ys))
    · simp [insertStable, h]

theorem sortStable_perm {α : Type} (lt : α → α → Bool) (l : List α) :
    (sortStable lt l).Perm l := by
  induction l with
  | nil => simp [sortStable]
  | cons x xs ih =>
    exact (insertStable_perm lt x (sortStable lt xs)).trans (ih.cons x)

theorem insertStable_pairwise {α : Type} (lt : α → α → Bool)
    (htr : ∀ a b c, lt b a = false → lt c b = false → lt c a = false)
    (hasym : ∀ a b, lt a b = true → lt b a = false)
    (x : α) (l : List α) (hl : l.Pairwise (fun a b => lt b a = false)) :
    (insertStable lt x l).Pairwise (fun a b => lt b a = false) := by
  induction l with
  | nil => simp [insertStable]
  | cons y ys ih =>
    rcases List.pairwise_cons.mp hl with ⟨hy, hys⟩
    by_cases h : lt y x = true
    · have hxy : lt x y = false := hasym y x h
      simp only [insertStable, if_pos h]
      refine List.pairwise_cons.mpr ⟨?_, ih hys⟩
      intro a ha
      have := (insertStable_perm lt x ys).mem_iff.mp ha
      rcases List.mem_cons.mp this with rfl | hmem
      · exact hxy
      · exact hy a hmem
    · have hyx : lt y x = false := by simpa using h
      simp only [insertStable, if_neg h]
      refine List.pairwise_cons.mpr ⟨?_, hl⟩
      intro a ha
      rcases List.mem_cons.mp ha with rfl | hmem
      · exact hyx
      · exact htr x y a hyx (List.rel_of_pairwise_cons hl hmem)

theorem sortStable_pairwise {α : Type} (lt : α → α → Bool)
    (htr : ∀ a b c, lt b a = false → lt c b = false → lt c a = false)
    (hasym : ∀ a b, lt a b = true → lt b a = false)
    (l : List α) :
    (sortStable lt l).Pairwise (fun a b => lt b a = false) := by
  induction l with
  | nil => simp [sortStable]
  | cons x xs ih => exact insertStable_pairwise lt htr hasym x _ ih

/-- Matches sorted ascending by round number
(`sorted(team_matches, key=lambda m: m.round_number)`). -/
def sortByRound (l : List Match) : List Match :=
  sortStable (fun a b => a.round_number < b.round_number) l

/-! ## C10 — `Match.__eq__` / `Match.__hash__` are id-only -/

/-- C10: `Match` equality is determined solely by the `id` field: `m1 == m2`
iff `m1.id == m2.id`, whatever the other fields are, and the hash likewise
depends only on the id, so set- and dict-based operations cannot tell two
matches with the same id apart. -/
theorem match_eq_hash_id_only :
    (∀ m1 m2 : Match, m1.pyEq m2 = true ↔ m1.id = m2.id) ∧
    (∀ m1 m2 : Match, m1.id = m2.id → m1.pyHash = m2.pyHash) := by
  constructor
  · intro m1 m2
    simp [Match.pyEq]
  · intro m1 m2 h
    simp [Match.pyHash, h]

/-- Witness for C10: two structurally different matches (different home,
away, stadium and round) sharing id 7 are `__eq__`-equal and hash-equal. -/
theorem match_eq_hash_id_only_witness :
    Match.pyEq ⟨7, 1, 2, 3, 4⟩ ⟨7, 5, 6, 8, 9⟩ = true ∧
    Match.pyHash ⟨7, 1, 2, 3, 4⟩ = Match.pyHash ⟨7, 5, 6, 8, 9⟩ :=
  ⟨(match_eq_hash_id_only.1 ⟨7, 1, 2, 3, 4⟩ ⟨7, 5, 6, 8, 9⟩).mpr rfl,
   match_eq_hash_id_only.2 ⟨7, 1, 2, 3, 4⟩ ⟨7, 5, 6, 8, 9⟩ rfl⟩

/-! ## Mutation operators (`src/ga/operators.py`, `GeneticOperators`)

Each operator first clones the input (`mutated = schedule.clone()`) and
then mutates only `round_number` fields of the clone, so the parent is
untouched.  `random.sample`, `random.choice` and `random.randint` draws
are passed in as explicit arguments; `random.choice(xs)` on a non-empty
list is modelled as indexing by `pick % xs.length`. -/

/-- In-place `l[i].round_number = r` on a list of matches. -/
def setRound (l : List Match) (i : Nat) (r : Nat) : List Match :=
  match l.get? i with
  | some m => l.set i { m with round_number := r }
  | none => l

/-- `GeneticOperators.mutate_swap_matches`: exchange the round numbers of
the matches at two positions (`random.sample` guarantees `idx1 ≠ idx2` in
the source; the embedding reads both rounds before writing, which agrees
with the source exactly on distinct indices). -/
def mutate_swap_matches (s : Schedule) (idx1 idx2 : Nat) : Schedule :=
  let mutated := s.clone
  if mutated.matches'.length < 2 then mutated
  else
    match mutated.matches'.get? idx1, mutated.matches'.get? idx2 with
    | some m1, some m2 =>
      { mutated with
        matches' := setRound (setRound mutated.matches' idx1 m2.round_number)
          idx2 m1.round_number }
    | _, _ => mutated

/-- `GeneticOperators.mutate_swap_rounds`: every match in `round1` moves to
`round2` and vice versa. -/
def mutate_swap_rounds (s : Schedule) (round1 round2 : Nat) : Schedule :=
  let mutated := s.clone
  { mutated with
    matches' := mutated.matches'.map (fun m =>
      if m.round_number == round1 then { m with round_number := round2 }
      else if m.round_number == round2 then { m with round_number := round1 }
      else m) }

/-- Index, in the full list, of the `k`-th element satisfying `p` — the
position of `filter p l`'s `k`-th element within `l` itself.  Used to model
mutating an element obtained through `get_matches_by_round` (the Python
lists alias the schedule's match objects). -/
def nthIdxWhere (p : Match → Bool) : List Match → Nat → Option Nat
  | [], _ => none
  | x :: xs, k =>
    if p x then
      if k = 0 then some 0 else (nthIdxWhere p xs (k - 1)).map (· + 1)
    else (nthIdxWhere p xs k).map (· + 1)

/-- `GeneticOperators.mutate_shuffle_round`: pick `target_round`; if it has
more than one match and a second drawn round differs from it and both are
non-empty, swap the round numbers of one match chosen from each; in every
other case the clone is returned unchanged. -/
def mutate_shuffle_round (s : Schedule) (target_round other_round pick1 pick2 : Nat) :
    Schedule :=
  let mutated := s.clone
  let round_matches := mutated.get_matches_by_round target_round
  if 1 < round_matches.length then
    if other_round ≠ target_round then
      let other_matches := mutated.get_matches_by_round other_round
      if round_matches.length ≠ 0 ∧ other_matches.length ≠ 0 then
        let i1 := pick1 % round_matches.length
        let i2 := pick2 % other_matches.length
        match nthIdxWhere (fun m => m.round_number == target_round) mutated.matches' i1,
              nthIdxWhere (fun m => m.round_number == other_round) mutated.matches' i2 with
        | some j1, some j2 =>
          match mutated.matches'.get? j1, mutated.matches'.get? j2 with
          | some m1, some m2 =>
            { mutated with
              matches' := setRound (setRound mutated.matches' j1 m2.round_number)
                j2 m1.round_number }
          | _, _ => mutated
        | _, _ => mutated
      else mutated
    else mutated
  else mutated

/-- `GeneticOperators.mutate_reverse_home_away`: choose a match, find the
first match with home/away reversed, and swap the two round numbers. -/
def mutate_reverse_home_away (s : Schedule) (pick : Nat) : Schedule :=
  let mutated := s.clone
  if mutated.matches'.isEmpty then mutated
  else
    let i := pick % mutated.matches'.length
    match mutated.matches'.get? i with
    | none => mutated
    | some match_to_reverse =>
      match mutated.matches'.findIdx? (fun m =>
          m.home_team_id == match_to_reverse.away_team_id &&
          m.away_team_id == match_to_reverse.home_team_id) with
      | none => mutated
      | some j =>
        match mutated.matches'.get? j with
        | none => mutated
        | some reverse_match =>
          { mutated with
            matches' := setRound (setRound mutated.matches' i reverse_match.round_number)
              j match_to_reverse.round_number }

/-- `GeneticOperators.mutate_move_match`: reassign one match's round to
`new_round` (`random.randint(1, total_rounds)` in the source). -/
def mutate_move_match (s : Schedule) (pick new_round : Nat) : Schedule :=
  let mutated := s.clone
  if mutated.matches'.isEmpty then mutated
  else
    let i := pick % mutated.matches'.length
    { mutated with matches' := setRound mutated.matches' i new_round }

/-- Everything of a match except its round: (id, home, away, stadium). -/
def matchKey (m : Match) : Nat × Nat × Nat × Nat :=
  (m.id, m.home_team_id, m.away_team_id, m.stadium_id)

/-- The directed matchups of a schedule, in list order, with stadium and
match id attached. -/
def directedMatchups (s : Schedule) : List (Nat × Nat × Nat × Nat) :=
  s.matches'.map matchKey

theorem List.set_get?_eq {α : Type} (l : List α) (i : Nat) (x : α)
    (h : l.get? i = some x) : l.set i x = l := by
  induction l generalizing i with
  | nil => simp
  | cons y ys ih =>
    cases i with
    | zero => simp_all
    | succ k => simp_all

theorem matchKey_setRound (l : List Match) (i r : Nat) :
    (setRound l i r).map matchKey = l.map matchKey := by
  unfold setRound
  cases h : l.get? i with
  | none => rfl
  | some m =>
    rw [List.map_set]
    have hk : matchKey { m with round_number := r } = matchKey m := rfl
    rw [hk]
    exact List.set_get?_eq _ _ _ (by simpa using congrArg (Option.map matchKey) h)

theorem matchKey_if_round (m : Match) (r1 r2 : Nat) :
    matchKey (if m.round_number == r1 then { m with round_number := r2 }
      else if m.round_number == r2 then { m with round_number := r1 }
      else m) = matchKey m := by
  split
  · rfl
  · split <;> rfl

/-! ## C5 — every mutation operator is a pure round reassignment -/

/-- C5: each of the five mutation operators returns a schedule whose list
of (match id, home team, away team, stadium) tuples — taken in list order,
hence in particular as a multiset of directed matchups — is exactly the
input's, for every random draw; only round numbers can differ.  The input
itself is untouched: every operator works on `Schedule.clone`, which
copies matches by value. -/
theorem mutation_ops_preserve_directed_matchups (s : Schedule) :
    (∀ idx1 idx2, directedMatchups (mutate_swap_matches s idx1 idx2) = directedMatchups s) ∧
    (∀ r1 r2, directedMatchups (mutate_swap_rounds s r1 r2) = directedMatchups s) ∧
    (∀ t o p1 p2, directedMatchups (mutate_shuffle_round s t o p1 p2) = directedMatchups s) ∧
    (∀ p, directedMatchups (mutate_reverse_home_away s p) = directedMatchups s) ∧
    (∀ p r, directedMatchups (mutate_move_match s p r) = directedMatchups s) := by
  refine ⟨?_, ?_, ?_, ?_, ?_⟩
  · intro idx1 idx2
    unfold mutate_swap_matches
    rw [Schedule.clone_eq]
    dsimp only
    split
    · rfl
    · split
      · simp [directedMatchups, matchKey_setRound]
      · rfl
  · intro r1 r2
    unfold mutate_swap_rounds
    rw [Schedule.clone_eq]
    simp only [directedMatchups, List.map_map]
    exact List.map_congr_left (fun m _ => matchKey_if_round m r1 r2)
  · intro t o p1 p2
    unfold mutate_shuffle_round
    rw [Schedule.clone_eq]
    dsimp only
    split
    · split
      · split
        · split
          · split
            · simp [directedMatchups, matchKey_setRound]
            · rfl
          · rfl
        · rfl
      · rfl
    · rfl
  · intro p
    unfold mutate_reverse_home_away
    rw [Schedule.clone_eq]
    dsimp only
    split
    · rfl
    · split
      · rfl
      · split
        · rfl
        · split
          · rfl
          · simp [directedMatchups, matchKey_setRound]
  · intro p r
    unfold mutate_move_match
    rw [Schedule.clone_eq]
    dsimp only
    split
    · rfl
    · simp [directedMatchups, matchKey_setRound]

/-! ## C8 — `mutate_shuffle_round` is not always a cross-round transfer -/

/-- A two-round schedule with a single match per round. -/
def twoRoundSchedule : Schedule :=
  { matches' := [⟨1, 1, 2, 1, 1⟩, ⟨2, 2, 1, 2, 2⟩], fitness_score := none }

/-- Counterexample to C8: `twoRoundSchedule` occupies two distinct rounds,
yet shuffle-round with target round 1, other round 2 and first-element
picks returns it unchanged — no cross-round transfer happens, because
round 1 contains only one match and the `len(round_matches) > 1` guard
fails. -/
theorem shuffle_round_counterexample :
    ((twoRoundSchedule.matches'.map Match.round_number).dedup = [1, 2]) ∧
    mutate_shuffle_round twoRoundSchedule 1 2 0 0 = twoRoundSchedule := by
  constructor
  · decide
  · decide

/-- C8 amended: `mutate_shuffle_round` effects a swap only when the drawn
target round holds more than one match and the second drawn round is
different; whenever the target round has at most one match, or the two
drawn rounds coincide, it returns the input unchanged (as a fresh clone) —
even on schedules occupying two or more distinct rounds. -/
theorem shuffle_round_noop_cases (s : Schedule) (t o p1 p2 : Nat)
    (h : (s.get_matches_by_round t).length ≤ 1 ∨ o = t) :
    mutate_shuffle_round s t o p1 p2 = s := by
  unfold mutate_shuffle_round
  rw [Schedule.clone_eq]
  dsimp only
  rcases h with h | h
  · rw [if_neg (by omega)]
  · split
    · rw [if_neg (by simp [h])]
    · rfl

/-- Witness for C8 amended: with both drawn rounds equal to 1, the operator
returns `twoRoundSchedule` unchanged. -/
theorem shuffle_round_noop_cases_witness :
    mutate_shuffle_round twoRoundSchedule 1 1 5 7 = twoRoundSchedule :=
  shuffle_round_noop_cases twoRoundSchedule 1 1 5 7 (Or.inr rfl)

/-! ## Soft constraints (`src/constraints/soft_constraints.py`)

`SoftConstraints` holds `teams` and a `distances` dict; `team_ids` is
`teams.map Team.id` and `teams_dict` maps id → team.  A Python dict built
by iterating `teams` keeps the **last** entry for duplicated keys, and a
missing key raises; the embedding returns `defaultTeam` in that
(never-exercised) case.  Scores are `ℚ` (exact on everything computed
here). -/

def defaultTeam : Team := ⟨0, "", "", "", 0⟩

/-- `self.teams_dict[team_id]` for `teams_dict = {t.id: t for t in teams}`. -/
def teams_dict_get (teams : List Team) (team_id : Nat) : Team :=
  ((teams.filter (fun t => t.id == team_id)).getLast?).getD defaultTeam

/-- `self.distances.get((c1, c2), 0)`; the dict is an association list
without duplicate keys. -/
def distances_get (distances : List ((String × String) × ℚ)) (key : String × String) : ℚ :=
  ((distances.find? (fun e => e.1 == key)).map (fun e => e.2)).getD 0

/-- The `consecutive_home/away`–`max_consecutive_home/away` loop of
`evaluate_home_away_balance`, with state
`(consecutive_home, consecutive_away, max_consecutive_home, max_consecutive_away)`. -/
def homeAwayMaxRuns (team_id : Nat) :
    List Match → Nat → Nat → Nat → Nat → Nat × Nat
  | [], _, _, mh, ma => (mh, ma)
  | m :: rest, ch, ca, mh, ma =>
    if m.home_team_id == team_id then
      homeAwayMaxRuns team_id rest (ch + 1) 0 (max mh (ch + 1)) ma
    else
      homeAwayMaxRuns team_id rest 0 (ca + 1) mh (max ma (ca + 1))

/-- Per-team penalty of `evaluate_home_away_balance`:
`(max_consecutive_home - 3) * 5` if that run exceeds 3, plus the same for
away runs. -/
def habTeamPenalty (team_id : Nat) (s : Schedule) : Nat :=
  let team_matches_sorted := sortByRound (s.get_matches_by_team team_id)
  let mm := homeAwayMaxRuns team_id team_matches_sorted 0 0 0 0
  (if 3 < mm.1 then (mm.1 - 3) * 5 else 0) + (if 3 < mm.2 then (mm.2 - 3) * 5 else 0)

/-- The `penalty` accumulated over `self.team_ids`. -/
def habPenalty (teams : List Team) (s : Schedule) : Nat :=
  (teams.map Team.id).foldl (fun penalty team_id => penalty + habTeamPenalty team_id s) 0

/-- `SoftConstraints.evaluate_home_away_balance`: `max(0, 100 - penalty)`. -/
def evaluate_home_away_balance (teams : List Team) (s : Schedule) : ℚ :=
  max 0 (100 - (habPenalty teams s : ℚ))

/-- One team's contribution to `total_distance` in
`evaluate_travel_distance`: iterate the round-sorted matches, and for each
away match add `distances.get((team.city, home_team.city), 0) * 2`. -/
def teamTravel (teams : List Team) (distances : List ((String × String) × ℚ))
    (team_id : Nat) (s : Schedule) : ℚ :=
  let team := teams_dict_get teams team_id
  (sortByRound (s.get_matches_by_team team_id)).foldl (fun total m =>
    if m.away_team_id == team_id then
      total + distances_get distances (team.city, (teams_dict_get teams m.home_team_id).city) * 2
    else total) 0

/-- `SoftConstraints.evaluate_travel_distance`: the expected distance is
the fixed constant `182000`; at or below it the score is 100, above it the
score decreases by 50 per unit of excess ratio, clamped at 0. -/
def evaluate_travel_distance (teams : List Team)
    (distances : List ((String × String) × ℚ)) (s : Schedule) : ℚ :=
  let total_distance := (teams.map Team.id).foldl
    (fun total team_id => total + teamTravel teams distances team_id s) 0
  let expected_distance : ℚ := 182000
  if total_distance ≤ expected_distance then 100
  else max 0 (100 - (total_distance - expected_distance) / expected_distance * 50)

/-- `SoftConstraints._get_region`: the hard-coded city → region table. -/
def get_region (city : String) : String :=
  if city ∈ ["Hà Nội", "Nam Định", "Hải Phòng"] then "North"
  else if city ∈ ["Hà Tĩnh", "Vinh", "Đà Nẵng", "Tam Kỳ", "Quy Nhơn"] then "Central"
  else if city ∈ ["Pleiku", "Nha Trang", "TP.HCM", "Thủ Dầu Một"] then "South"
  else "Unknown"

/-- The opponent of `team_id` in a match. -/
def opponentId (team_id : Nat) (m : Match) : Nat :=
  if m.home_team_id == team_id then m.away_team_id else m.home_team_id

/-- The 3-match sliding-window loop of `evaluate_competitive_balance`:
5 penalty for every window of 3 consecutive matches whose opponents all
lie in one region. -/
def cbWindowPenalty (teams : List Team) (team_id : Nat) : List Match → Nat
  | m1 :: m2 :: m3 :: rest =>
    (let r1 := get_region (teams_dict_get teams (opponentId team_id m1)).city
     let r2 := get_region (teams_dict_get teams (opponentId team_id m2)).city
     let r3 := get_region (teams_dict_get teams (opponentId team_id m3)).city
     if r1 = r2 ∧ r2 = r3 then 5 else 0) + cbWindowPenalty teams team_id (m2 :: m3 :: rest)
  | _ => 0

/-- The `penalty` accumulated by `evaluate_competitive_balance`. -/
def cbPenalty (teams : List Team) (s : Schedule) : Nat :=
  (teams.map Team.id).foldl (fun penalty team_id =>
    penalty + cbWindowPenalty teams team_id (sortByRound (s.get_matches_by_team team_id))) 0

/-- `SoftConstraints.evaluate_competitive_balance` (the `regions` grouping
built at its top is never read when scoring and is omitted). -/
def evaluate_competitive_balance (teams : List Team) (s : Schedule) : ℚ :=
  max 0 (100 - (cbPenalty teams s : ℚ))

/-- The adjacent-gap loop of `evaluate_rest_days_fairness`: 5 penalty per
adjacent pair of the sorted round list with gap > 1. -/
def rdfGapPenalty : List Nat → Nat
  | r1 :: r2 :: rest => (if 1 < r2 - r1 then 5 else 0) + rdfGapPenalty (r2 :: rest)
  | _ => 0

/-- The `penalty` accumulated by `evaluate_rest_days_fairness`. -/
def rdfPenalty (teams : List Team) (s : Schedule) : Nat :=
  (teams.map Team.id).foldl (fun penalty team_id =>
    penalty + rdfGapPenalty (sortStable (fun a b => a < b)
      ((s.get_matches_by_team team_id).map Match.round_number))) 0

/-- `SoftConstraints.evaluate_rest_days_fairness`. -/
def evaluate_rest_days_fairness (teams : List Team) (s : Schedule) : ℚ :=
  max 0 (100 - (rdfPenalty teams s : ℚ))

/-- `tuple(sorted([home, away]))`. -/
def matchupPair (m : Match) : Nat × Nat :=
  if m.home_team_id ≤ m.away_team_id then (m.home_team_id, m.away_team_id)
  else (m.away_team_id, m.home_team_id)

/-- The `-10` count of `evaluate_derby_distribution`: adjacent sorted
derby rounds closer than 3 apart. -/
def derbyGapPenalty : List Nat → Nat
  | r1 :: r2 :: rest => (if r2 - r1 < 3 then 10 else 0) + derbyGapPenalty (r2 :: rest)
  | _ => 0

/-- `SoftConstraints.evaluate_derby_distribution`: 100 when `derby_pairs`
is empty or no derby match is scheduled; else 100 minus 10 per close pair
of derby rounds, clamped at 0. -/
def evaluate_derby_distribution (s : Schedule) (derby_pairs : List (Nat × Nat)) : ℚ :=
  if derby_pairs.isEmpty then 100
  else
    let derby_rounds := (s.matches'.filter (fun m =>
      matchupPair m ∈ derby_pairs ∨ ((matchupPair m).2, (matchupPair m).1) ∈ derby_pairs)).map
      Match.round_number
    if derby_rounds.isEmpty then 100
    else
      let derby_rounds_sorted := sortStable (fun a b => a < b) derby_rounds
      max 0 (100 - (derbyGapPenalty derby_rounds_sorted : ℚ))

/-- `SoftConstraints.evaluate_all_soft_constraints`: the result dict, as an
association list in insertion order.  The `derby_distribution` entry is
added **only when `derby_pairs` is non-empty** (`if derby_pairs:` treats
`None` and `[]` alike). -/
def evaluate_all_soft_constraints (teams : List Team)
    (distances : List ((String × String) × ℚ)) (s : Schedule)
    (derby_pairs : List (Nat × Nat)) : List (String × ℚ) :=
  [("home_away_balance", evaluate_home_away_balance teams s),
   ("travel_distance", evaluate_travel_distance teams distances s),
   ("competitive_balance", evaluate_competitive_balance teams s),
   ("rest_days_fairness", evaluate_rest_days_fairness teams s)] ++
  (if derby_pairs.isEmpty then [] else
   [("derby_distribution", evaluate_derby_distribution s derby_pairs)])

/-- The default soft-constraint weights of `get_weighted_score`. -/
def default_soft_weights : List (String × ℚ) :=
  [("home_away_balance", 0.25), ("travel_distance", 0.30),
   ("competitive_balance", 0.20), ("rest_days_fairness", 0.15),
   ("derby_distribution", 0.10)]

/-- `SoftConstraints.get_weighted_score`: iterate the results dict, and for
each key present in `weights` accumulate `score * weight` and the weight;
normalise by the accumulated weight (0 if no weight accumulated). -/
def get_weighted_score (results : List (String × ℚ)) (weights : List (String × ℚ)) : ℚ :=
  let totals := results.foldl (fun (acc : ℚ × ℚ) kv =>
    match weights.find? (fun w => w.1 == kv.1) with
    | some w => (acc.1 + kv.2 * w.2, acc.2 + w.2)
    | none => acc) (0, 0)
  if 0 < totals.2 then totals.1 / totals.2 else 0

/-! ## C2 — home/away balance score

`H*`/`A*` are specified declaratively: turn a team's round-sorted matches
into a list of home flags; `maxRun b` is the greatest length of a block of
consecutive `b`s, defined as the maximum over all suffixes of the leading
`b`-run. -/

/-- Length of the leading run of `b`s. -/
def leadRun (b : Bool) : List Bool → Nat
  | [] => 0
  | x :: rest => if x = b then leadRun b rest + 1 else 0

/-- Longest run of consecutive `b`s: maximum over suffixes of `leadRun`. -/
def maxRun (b : Bool) : List Bool → Nat
  | [] => 0
  | x :: rest => max (leadRun b (x :: rest)) (maxRun b rest)

/-- A team's home/away pattern in ascending round order (`true` = home). -/
def homeFlags (team_id : Nat) (s : Schedule) : List Bool :=
  (sortByRound (s.get_matches_by_team team_id)).map (fun m => m.home_team_id == team_id)

/-- `maxRun` continuation: longest `b`-run when a run of `c` `b`s
immediately precedes the list. -/
def maxRunFrom (b : Bool) (c : Nat) : List Bool → Nat
  | [] => 0
  | x :: rest => if x = b then max (c + 1) (maxRunFrom b (c + 1) rest) else maxRunFrom b 0 rest

theorem leadRun_le_maxRun (b : Bool) (l : List Bool) : leadRun b l ≤ maxRun b l := by
  cases l with
  | nil => simp [leadRun, maxRun]
  | cons x rest => simp [maxRun]

theorem maxRunFrom_eq (b : Bool) (l : List Bool) : ∀ c : Nat,
    maxRunFrom b c l = max (if 0 < leadRun b l then c + leadRun b l else 0) (maxRun b l) := by
  induction l with
  | nil => intro c; simp [maxRunFrom, leadRun, maxRun]
  | cons x rest ih =>
    intro c
    by_cases hx : x = b
    · have h1 := ih (c + 1)
      have h2 := leadRun_le_maxRun b rest
      simp only [maxRunFrom, leadRun, maxRun, if_pos hx] at *
      by_cases h0 : 0 < leadRun b rest
      · rw [if_pos h0] at h1
        rw [if_pos (by omega)]
        omega
      · rw [if_neg h0] at h1
        rw [if_pos (by omega)]
        omega
    · have h1 := ih 0
      have h2 := leadRun_le_maxRun b rest
      simp only [maxRunFrom, leadRun, maxRun, if_neg hx] at *
      by_cases h0 : 0 < leadRun b rest
      · rw [if_pos h0] at h1
        rw [if_neg (by omega)]
        omega
      · rw [if_neg h0] at h1
        rw [if_neg (by omega)]
        omega

theorem maxRunFrom_zero (b : Bool) (l : List Bool) : maxRunFrom b 0 l = maxRun b l := by
  have h1 := maxRunFrom_eq b l 0
  have h2 := leadRun_le_maxRun b l
  by_cases h0 : 0 < leadRun b l
  · rw [if_pos h0] at h1; omega
  · rw [if_neg h0] at h1; omega

theorem homeAwayMaxRuns_eq (team_id : Nat) (l : List Match) :
    ∀ ch ca mh ma, homeAwayMaxRuns team_id l ch ca mh ma =
      (max mh (maxRunFrom true ch (l.map (fun m => m.home_team_id == team_id))),
       max ma (maxRunFrom false ca (l.map (fun m => m.home_team_id == team_id)))) := by
  induction l with
  | nil => intro ch ca mh ma; simp [homeAwayMaxRuns, maxRunFrom]
  | cons m rest ih =>
    intro ch ca mh ma
    cases hm : (m.home_team_id == team_id) with
    | true =>
      simp [homeAwayMaxRuns, hm, maxRunFrom, ih, Prod.ext_iff]
      omega
    | false =>
      simp [homeAwayMaxRuns, hm, maxRunFrom, ih, Prod.ext_iff]
      omega

/-- The per-team penalty equals `5·(H*−3)⁺ + 5·(A*−3)⁺` (truncated
subtraction). -/
theorem habTeamPenalty_eq (team_id : Nat) (s : Schedule) :
    habTeamPenalty team_id s =
      5 * (maxRun true (homeFlags team_id s) - 3) +
      5 * (maxRun false (homeFlags team_id s) - 3) := by
  unfold habTeamPenalty homeFlags
  dsimp only
  rw [homeAwayMaxRuns_eq]
  simp only [Nat.zero_max, maxRunFrom_zero]
  split_ifs <;> omega

theorem foldl_add_map_nat {α : Type} (f : α → Nat) (l : List α) :
    ∀ acc : Nat, l.foldl (fun a x => a + f x) acc = acc + (l.map f).sum := by
  induction l with
  | nil => intro acc; simp
  | cons x xs ih => intro acc; simp [ih]; omega

/-- The home/away balance score as the specification words it (amended):
100 minus 5 per unit of `H*` above 3 **plus** 5 per unit of `A*` above 3,
summed over teams, clamped below at 0. -/
def spec_home_away_balance (teams : List Team) (s : Schedule) : ℚ :=
  max 0 (100 - ((teams.map (fun t =>
    5 * (maxRun true (homeFlags t.id s) - 3) +
    5 * (maxRun false (homeFlags t.id s) - 3))).sum : ℚ))

/-- The home/away balance score as claim C2 words it: 5 per unit of
`max(H*, A*)` above 3. -/
def claimHabPenalty (teams : List Team) (s : Schedule) : Nat :=
  (teams.map (fun t =>
    5 * (max (maxRun true (homeFlags t.id s)) (maxRun false (homeFlags t.id s)) - 3))).sum

/-- Claim C2's version of the score. -/
def claim_home_away_balance (teams : List Team) (s : Schedule) : ℚ :=
  max 0 (100 - (claimHabPenalty teams s : ℚ))

/-- Counterexample to C2: two teams meeting eight times, the first four
rounds at team 1, the last four at team 2.  Each team has `H* = A* = 4`,
so the code charges both the home excess and the away excess (5 + 5 per
team, total 20) and scores 80, while the claimed `max(H*, A*)` formula
charges 5 per team and scores 90. -/
theorem home_away_balance_counterexample :
    evaluate_home_away_balance [⟨1, "A", "A", "CityA", 1⟩, ⟨2, "B", "B", "CityB", 2⟩]
        ⟨[⟨1, 1, 2, 1, 1⟩, ⟨2, 1, 2, 1, 2⟩, ⟨3, 1, 2, 1, 3⟩, ⟨4, 1, 2, 1, 4⟩,
          ⟨5, 2, 1, 2, 5⟩, ⟨6, 2, 1, 2, 6⟩, ⟨7, 2, 1, 2, 7⟩, ⟨8, 2, 1, 2, 8⟩], none⟩ = 80 ∧
    claim_home_away_balance [⟨1, "A", "A", "CityA", 1⟩, ⟨2, "B", "B", "CityB", 2⟩]
        ⟨[⟨1, 1, 2, 1, 1⟩, ⟨2, 1, 2, 1, 2⟩, ⟨3, 1, 2, 1, 3⟩, ⟨4, 1, 2, 1, 4⟩,
          ⟨5, 2, 1, 2, 5⟩, ⟨6, 2, 1, 2, 6⟩, ⟨7, 2, 1, 2, 7⟩, ⟨8, 2, 1, 2, 8⟩], none⟩ = 90 := by
  constructor
  · have h : habPenalty [⟨1, "A", "A", "CityA", 1⟩, ⟨2, "B", "B", "CityB", 2⟩]
        ⟨[⟨1, 1, 2, 1, 1⟩, ⟨2, 1, 2, 1, 2⟩, ⟨3, 1, 2, 1, 3⟩, ⟨4, 1, 2, 1, 4⟩,
          ⟨5, 2, 1, 2, 5⟩, ⟨6, 2, 1, 2, 6⟩, ⟨7, 2, 1, 2, 7⟩, ⟨8, 2, 1, 2, 8⟩], none⟩ = 20 := by
      decide
    rw [evaluate_home_away_balance, h]
    norm_num
  · have h : claimHabPenalty [⟨1, "A", "A", "CityA", 1⟩, ⟨2, "B", "B", "CityB", 2⟩]
        ⟨[⟨1, 1, 2, 1, 1⟩, ⟨2, 1, 2, 1, 2⟩, ⟨3, 1, 2, 1, 3⟩, ⟨4, 1, 2, 1, 4⟩,
          ⟨5, 2, 1, 2, 5⟩, ⟨6, 2, 1, 2, 6⟩, ⟨7, 2, 1, 2, 7⟩, ⟨8, 2, 1, 2, 8⟩], none⟩ = 10 := by
      decide
    rw [claim_home_away_balance, h]
    norm_num

/-- C2 amended: for every team list and schedule, the home/away balance
score equals 100 minus, summed over all teams, 5 per unit by which `H*`
exceeds 3 **plus** 5 per unit by which `A*` exceeds 3 (the two excesses
are charged separately, not through their maximum), clamped below at 0,
with `H*`/`A*` the longest consecutive home/away runs in ascending round
order. -/
theorem home_away_balance_eq_spec (teams : List Team) (s : Schedule) :
    evaluate_home_away_balance teams s = spec_home_away_balance teams s := by
  unfold evaluate_home_away_balance spec_home_away_balance habPenalty
  rw [foldl_add_map_nat]
  simp only [Nat.zero_add, List.map_map]
  have h : ((teams.map Team.id).map (fun team_id => habTeamPenalty team_id s))
      = teams.map (fun t =>
        5 * (maxRun true (homeFlags t.id s) - 3) + 5 * (maxRun false (homeFlags t.id s) - 3)) := by
    rw [List.map_map]
    exact List.map_congr_left (fun t _ => habTeamPenalty_eq t.id s)
  rw [← List.map_map, h]

/-! ## C4 — travel distance score -/

theorem foldl_add_map_rat {α : Type} (f : α → ℚ) (l : List α) :
    ∀ acc : ℚ, l.foldl (fun a x => a + f x) acc = acc + (l.map f).sum := by
  induction l with
  | nil => intro acc; simp
  | cons x xs ih => intro acc; simp [ih]; ring

theorem foldl_add_if_map_rat {α : Type} (p : α → Bool) (f : α → ℚ) (l : List α) :
    ∀ acc : ℚ, l.foldl (fun a x => if p x then a + f x else a) acc
      = acc + ((l.filter p).map f).sum := by
  induction l with
  | nil => intro acc; simp
  | cons x xs ih =>
    intro acc
    cases hp : p x with
    | true => simp [hp, ih]; ring
    | false => simp [hp, ih]

/-- With team ids nodup, every team is found in `{t.id: t for t in teams}`
under its own id. -/
theorem teams_dict_get_self (teams : List Team) (hn : (teams.map Team.id).Nodup)
    (t : Team) (ht : t ∈ teams) : teams_dict_get teams t.id = t := by
  have hf : teams.filter (fun u => u.id == t.id) = [t] := by
    induction teams with
    | nil => cases ht
    | cons u rest ih =>
      have hn' : u.id ∉ rest.map Team.id ∧ (rest.map Team.id).Nodup := by
        have h := hn
        rw [List.map_cons, List.nodup_cons] at h
        exact h
      rcases List.mem_cons.mp ht with heq | hmem
      · subst heq
        have hrest : rest.filter (fun v => v.id == t.id) = [] := by
          rw [List.filter_eq_nil_iff]
          intro v hv hbeq
          have hvid : v.id = t.id := by simpa using hbeq
          exact hn'.1 (hvid ▸ List.mem_map_of_mem Team.id hv)
        rw [List.filter_cons, if_pos (by simp), hrest]
      · have hne : u.id ≠ t.id := by
          intro h
          exact hn'.1 (h ▸ List.mem_map_of_mem Team.id hmem)
        rw [List.filter_cons, if_neg (by simpa using hne)]
        exact ih hn'.2 hmem
  rw [teams_dict_get, hf]
  rfl

/-- Total doubled away travel as the specification words it: for each
team, sum `2 · dist(team.city, opponent_home.city)` over its away
matches. -/
def spec_travel_total (teams : List Team)
    (distances : List ((String × String) × ℚ)) (s : Schedule) : ℚ :=
  (teams.map (fun t =>
    (((s.get_matches_by_team t.id).filter (fun m => m.away_team_id == t.id)).map (fun m =>
      2 * distances_get distances (t.city, (teams_dict_get teams m.home_team_id).city))).sum)).sum

/-- The travel score as claim C4 words it, with the expected distance a
function `E = 2·500·N·(N−1)/2` of the number of teams. -/
def claim_travel_score (teams : List Team)
    (distances : List ((String × String) × ℚ)) (s : Schedule) : ℚ :=
  let N : ℚ := teams.length
  let E : ℚ := 2 * 500 * N * (N - 1) / 2
  let total := spec_travel_total teams distances s
  if total ≤ E then 100 else max 0 (100 - 50 * (total - E) / E)

theorem teamTravel_eq (teams : List Team) (distances : List ((String × String) × ℚ))
    (s : Schedule) (hn : (teams.map Team.id).Nodup) (t : Team) (ht : t ∈ teams) :
    teamTravel teams distances t.id s =
      (((s.get_matches_by_team t.id).filter (fun m => m.away_team_id == t.id)).map (fun m =>
        2 * distances_get distances (t.city, (teams_dict_get teams m.home_team_id).city))).sum := by
  unfold teamTravel
  dsimp only
  rw [teams_dict_get_self teams hn t ht, foldl_add_if_map_rat]
  rw [Rat.zero_add]
  have hperm : ((sortByRound (s.get_matches_by_team t.id)).filter
      (fun m => m.away_team_id == t.id)).Perm
      ((s.get_matches_by_team t.id).filter (fun m => m.away_team_id == t.id)) :=
    (sortStable_perm _ _).filter _
  rw [List.Perm.sum_eq (hperm.map _)]
  refine congrArg List.sum (List.map_congr_left ?_)
  intro m _
  ring

/-- C4 amended: the expected distance in `evaluate_travel_distance` is the
**fixed constant** `182000`, whatever the number of teams `N`: the score
is 100 when the total doubled away travel is at most 182000, else
`max(0, 100 − 50·(total − 182000)/182000)`.  (The claimed formula
`E = 2·500·N·(N−1)/2` is not what the code computes — the constant is not
a function of `N`.) -/
theorem travel_distance_eq_spec (teams : List Team)
    (distances : List ((String × String) × ℚ)) (s : Schedule)
    (hn : (teams.map Team.id).Nodup) :
    evaluate_travel_distance teams distances s =
      (if spec_travel_total teams distances s ≤ 182000 then 100
       else max 0 (100 - (spec_travel_total teams distances s - 182000) / 182000 * 50)) := by
  unfold evaluate_travel_distance
  dsimp only
  rw [foldl_add_map_rat, Rat.zero_add]
  have h : ((teams.map Team.id).map (fun team_id => teamTravel teams distances team_id s)).sum
      = spec_travel_total teams distances s := by
    rw [List.map_map, spec_travel_total]
    exact congrArg List.sum (List.map_congr_left (fun t ht =>
      teamTravel_eq teams distances s hn t ht))
  rw [h]

/-- Two teams in two cities, 1000 km apart. -/
def travelTeams : List Team := [⟨1, "A", "A", "CityA", 1⟩, ⟨2, "B", "B", "CityB", 2⟩]

def travelDistances : List ((String × String) × ℚ) :=
  [(("CityA", "CityB"), 1000), (("CityB", "CityA"), 1000)]

/-- Counterexample to C4: with N = 2 teams and one round-trip of 1000 km
each way, the doubled away travel totals 4000.  Claim C4's
`E = 2·500·N·(N−1)/2 = 1000` would give score 0, but the code compares
against the fixed 182000 and scores 100 — the expected distance is not a
function of N. -/
theorem travel_distance_counterexample :
    evaluate_travel_distance travelTeams travelDistances twoRoundSchedule = 100 ∧
    claim_travel_score travelTeams travelDistances twoRoundSchedule = 0 := by
  constructor
  · simp [evaluate_travel_distance, teamTravel, twoRoundSchedule, Schedule.get_matches_by_team,
      Match.involves_team, teams_dict_get, distances_get, defaultTeam, sortByRound, sortStable,
      insertStable, travelTeams, travelDistances]
    norm_num
  · have h : spec_travel_total travelTeams travelDistances twoRoundSchedule = 4000 := by
      simp [spec_travel_total, Schedule.get_matches_by_team, twoRoundSchedule,
        Match.involves_team, teams_dict_get, distances_get, defaultTeam, travelTeams,
        travelDistances]
      norm_num
    unfold claim_travel_score
    rw [h]
    norm_num [travelTeams]

/-- Witness for C4 amended at a concrete league with nodup team ids. -/
theorem travel_distance_eq_spec_witness :
    evaluate_travel_distance travelTeams travelDistances twoRoundSchedule =
      (if spec_travel_total travelTeams travelDistances twoRoundSchedule ≤ 182000 then 100
       else max 0 (100 -
        (spec_travel_total travelTeams travelDistances twoRoundSchedule - 182000) / 182000 * 50)) :=
  travel_distance_eq_spec travelTeams travelDistances twoRoundSchedule (by decide)

/-! ## C3 — weighted soft score with an empty derby set -/

/-- The weighted soft score as claim C3 words it for an empty derby set:
all five terms present, `derby_distribution` contributing its score of
100 with weight 0.10. -/
def claim_weighted_five (teams : List Team) (distances : List ((String × String) × ℚ))
    (s : Schedule) : ℚ :=
  (0.25 * evaluate_home_away_balance teams s +
   0.30 * evaluate_travel_distance teams distances s +
   0.20 * evaluate_competitive_balance teams s +
   0.15 * evaluate_rest_days_fairness teams s +
   0.10 * 100) / (0.25 + 0.30 + 0.20 + 0.15 + 0.10)

/-- The same league as `travelTeams` playing its eight matchups over
rounds 1–8, first four at team 1. -/
def eightMatchSchedule : Schedule :=
  ⟨[⟨1, 1, 2, 1, 1⟩, ⟨2, 1, 2, 1, 2⟩, ⟨3, 1, 2, 1, 3⟩, ⟨4, 1, 2, 1, 4⟩,
    ⟨5, 2, 1, 2, 5⟩, ⟨6, 2, 1, 2, 6⟩, ⟨7, 2, 1, 2, 7⟩, ⟨8, 2, 1, 2, 8⟩], none⟩

/-- Counterexample to C3: on `eightMatchSchedule` the four computed soft
scores are 80/100/40/100, so the code's weighted score with an empty derby
set is `73/0.9 = 730/9 ≈ 81.1` — the derby term is dropped from the
results dict, not scored as 100 — while claim C3's five-term formula gives
`(73 + 10)/1 = 83`. -/
theorem weighted_score_counterexample :
    get_weighted_score (evaluate_all_soft_constraints travelTeams [] eightMatchSchedule [])
      default_soft_weights = 730 / 9 ∧
    claim_weighted_five travelTeams [] eightMatchSchedule = 83 ∧
    (730 / 9 : ℚ) ≠ 83 := by
  have h1 : evaluate_home_away_balance travelTeams eightMatchSchedule = 80 := by
    have h : habPenalty travelTeams eightMatchSchedule = 20 := by decide
    rw [evaluate_home_away_balance, h]; norm_num
  have h2 : evaluate_travel_distance travelTeams [] eightMatchSchedule = 100 := by
    simp [evaluate_travel_distance, teamTravel, eightMatchSchedule, Schedule.get_matches_by_team,
      Match.involves_team, teams_dict_get, distances_get, defaultTeam, sortByRound, sortStable,
      insertStable, travelTeams]
  have h3 : evaluate_competitive_balance travelTeams eightMatchSchedule = 40 := by
    have h : cbPenalty travelTeams eightMatchSchedule = 60 := by decide
    rw [evaluate_competitive_balance, h]; norm_num
  have h4 : evaluate_rest_days_fairness travelTeams eightMatchSchedule = 100 := by
    have h : rdfPenalty travelTeams eightMatchSchedule = 0 := by decide
    rw [evaluate_rest_days_fairness, h]; norm_num
  refine ⟨?_, ?_, by norm_num⟩
  · simp [get_weighted_score, evaluate_all_soft_constraints, default_soft_weights, List.find?,
      h1, h2, h3, h4]
    rw [if_pos (by norm_num)]
    norm_num
  · rw [claim_weighted_five, h1, h2, h3, h4]
    norm_num

/-- C3 amended: with an empty derby set, `evaluate_all_soft_constraints`
omits the `derby_distribution` entry entirely (although
`evaluate_derby_distribution` itself would return 100), and the weighted
soft score is `Σ w_k·s_k / Σ w_k` over the remaining **four** terms — the
denominator is `0.25 + 0.30 + 0.20 + 0.15 = 0.9`, not 1. -/
theorem weighted_score_empty_derby (teams : List Team)
    (distances : List ((String × String) × ℚ)) (s : Schedule) :
    "derby_distribution" ∉ (evaluate_all_soft_constraints teams distances s []).map Prod.fst ∧
    evaluate_derby_distribution s [] = 100 ∧
    get_weighted_score (evaluate_all_soft_constraints teams distances s []) default_soft_weights =
      (0.25 * evaluate_home_away_balance teams s +
       0.30 * evaluate_travel_distance teams distances s +
       0.20 * evaluate_competitive_balance teams s +
       0.15 * evaluate_rest_days_fairness teams s) / (0.25 + 0.30 + 0.20 + 0.15) := by
  refine ⟨?_, rfl, ?_⟩
  · simp [evaluate_all_soft_constraints]
  · simp [get_weighted_score, evaluate_all_soft_constraints, default_soft_weights, List.find?]
    rw [if_pos (by norm_num)]
    ring_nf

/-! ## C9 — configuration validation (`src/optimization/config.py`)

`GAConfig` with the source's defaults.  Integer fields are `ℤ` (Python
ints), probabilities and weights `ℚ`, weight dicts association lists. -/

structure GAConfig where
  population_size : Int := 200
  n_generations : Int := 1000
  crossover_prob : ℚ := 0.8
  mutation_prob : ℚ := 0.2
  tournament_size : Int := 3
  n_elites : Int := 2
  init_strategies : List (String × ℚ) :=
    [("random", 0.4), ("round_robin", 0.2), ("balanced", 0.2), ("stadium_aware", 0.2)]
  soft_weights : List (String × ℚ) :=
    [("home_away_balance", 0.25), ("travel_distance", 0.30),
     ("competitive_balance", 0.20), ("rest_days_fairness", 0.15),
     ("derby_distribution", 0.10)]
  penalty_weights : List (String × ℚ) :=
    [("all_matchups", 1000), ("no_consecutive", 500), ("one_match_per_round", 1000),
     ("stadium_conflict", 800), ("correct_stadium", 500), ("total_matches", 1000),
     ("matches_per_round", 1000)]
  use_repair : Bool := true
  max_repair_iterations : Int := 50
  enable_logging : Bool := true
  log_frequency : Int := 10
  save_history : Bool := true
  early_stopping : Bool := true
  early_stopping_patience : Int := 100
  early_stopping_min_improvement : ℚ := 0.01
  use_local_search : Bool := false
  local_search_frequency : Int := 50
  random_seed : Option Int := none

/-- `sum(dict.values())`. -/
def sumValues (l : List (String × ℚ)) : ℚ :=
  (l.map Prod.snd).sum

/-- `GAConfig.validate`: the accumulated error list, in source order.
Note that `penalty_weights` is never inspected. -/
def GAConfig.validate (config : GAConfig) : List String :=
  (if config.population_size < 10 then ["Population size quá nhỏ"] else []) ++
  (if config.n_generations < 1 then ["Số thế hệ phải > 0"] else []) ++
  (if ¬ (0 ≤ config.crossover_prob ∧ config.crossover_prob ≤ 1) then
    ["Crossover probability phải trong đoạn 0 đến 1"] else []) ++
  (if ¬ (0 ≤ config.mutation_prob ∧ config.mutation_prob ≤ 1) then
    ["Mutation probability phải trong đoạn 0 đến 1"] else []) ++
  (if config.tournament_size < 2 then ["Tournament size phải >= 2"] else []) ++
  (if config.population_size < config.tournament_size then
    ["Tournament size không được lớn hơn population size"] else []) ++
  (if config.n_elites < 0 then ["Số elite phải >= 0"] else []) ++
  (if config.population_size ≤ config.n_elites then ["Số elite phải < population size"] else []) ++
  (if 1/100 < |sumValues config.init_strategies - 1| then
    ["Tổng trọng số init_strategies phải = 1.0"] else []) ++
  (if 1/100 < |sumValues config.soft_weights - 1| then
    ["Tổng trọng số soft_weights phải = 1.0"] else [])

/-- `GAOptimizer.__init__`'s validation step: raise `ValueError` when
`config.validate()` returns any error, else construction proceeds. -/
def GAOptimizer_init (config : GAConfig) : Except String GAConfig :=
  if config.validate ≠ [] then Except.error "Config không hợp lệ" else Except.ok config

/-- The default configuration with the `all_matchups` penalty weight made
negative. -/
def negPenaltyConfig : GAConfig :=
  { penalty_weights :=
    [("all_matchups", -1000), ("no_consecutive", 500), ("one_match_per_round", 1000),
     ("stadium_conflict", 800), ("correct_stadium", 500), ("total_matches", 1000),
     ("matches_per_round", 1000)] }

/-- Counterexample to C9: a configuration whose `all_matchups` penalty
weight is −1000 passes `validate()` with no errors and optimizer
construction succeeds — `validate` never inspects `penalty_weights`, so a
negative penalty weight is not a configuration error. -/
theorem negative_penalty_weight_counterexample :
    (("all_matchups", (-1000 : ℚ)) ∈ negPenaltyConfig.penalty_weights ∧ (-1000 : ℚ) < 0) ∧
    negPenaltyConfig.validate = [] ∧
    GAOptimizer_init negPenaltyConfig = Except.ok negPenaltyConfig := by
  have hv : negPenaltyConfig.validate = [] := by
    show GAConfig.validate _ = []
    rw [GAConfig.validate]
    norm_num [negPenaltyConfig, sumValues]
  refine ⟨⟨by rw [negPenaltyConfig]; simp, by norm_num⟩, hv, ?_⟩
  rw [GAOptimizer_init, hv]
  simp

/-- C9 amended: `GAConfig.validate` does not depend on `penalty_weights`
at all — replacing the penalty weights (in particular by negative ones)
never changes the validation outcome — and optimizer construction
succeeds exactly when `validate` reports no error. -/
theorem validate_ignores_penalty_weights (config : GAConfig) (pw : List (String × ℚ)) :
    ({ config with penalty_weights := pw } : GAConfig).validate = config.validate ∧
    (GAOptimizer_init config = Except.ok config ↔ config.validate = []) := by
  constructor
  · rfl
  · rw [GAOptimizer_init]
    constructor
    · intro h
      by_contra hne
      rw [if_pos hne] at h
      cases h
    · intro h
      rw [if_neg (by simp [h])]

/-! ## C6 — elitism (`src/optimization/ga_optimizer.py`, `optimize`)

A DEAP individual is a schedule with a fitness value attached. -/

structure Individual where
  sched : Schedule
  fitness : ℚ
deriving DecidableEq

/-- Modelled from the spec: DEAP's `tools.selBest(individuals, k)` (the
toolkit is outside this repository) — `sorted(individuals,
key=fitness, reverse=True)[:k]`, a stable descending sort followed by
taking the first `k`. -/
def selBest (individuals : List Individual) (k : Nat) : List Individual :=
  (sortStable (fun a b => b.fitness < a.fitness) individuals).take k

/-- The elitism step of `GAOptimizer.optimize`:
`offspring = elites + offspring[:-n_elites]` when `n_elites > 0` — the
elites are prepended and the **positionally last** `n_elites` offspring
are dropped. -/
def elitismStep (population offspring : List Individual) (n_elites : Nat) : List Individual :=
  if 0 < n_elites then
    selBest population n_elites ++ offspring.take (offspring.length - n_elites)
  else offspring

/-- The elitism step as claim C6 words it: the `n_elites` *lowest-fitness*
offspring are replaced, i.e. only the best `len − n_elites` offspring are
kept. -/
def claim_elitism (population offspring : List Individual) (n : Nat) : List Individual :=
  selBest population n ++
    (sortStable (fun a b => b.fitness < a.fitness) offspring).take (offspring.length - n)

def emptySched : Schedule := ⟨[], none⟩

/-- Counterexample to C6: population `[50]`, offspring `[0, 100]`,
`n_elites = 1`.  The code keeps `offspring[:-1] = [0]` — dropping the
*best* offspring (fitness 100) because it sits last — and yields
fitnesses `[50, 0]`; replacing the lowest-fitness offspring as claimed
would yield `[50, 100]`.  The two results differ even as multisets. -/
theorem elitism_counterexample :
    elitismStep [⟨emptySched, 50⟩] [⟨emptySched, 0⟩, ⟨emptySched, 100⟩] 1
      = [⟨emptySched, 50⟩, ⟨emptySched, 0⟩] ∧
    claim_elitism [⟨emptySched, 50⟩] [⟨emptySched, 0⟩, ⟨emptySched, 100⟩] 1
      = [⟨emptySched, 50⟩, ⟨emptySched, 100⟩] ∧
    ¬ (elitismStep [⟨emptySched, 50⟩] [⟨emptySched, 0⟩, ⟨emptySched, 100⟩] 1).Perm
      (claim_elitism [⟨emptySched, 50⟩] [⟨emptySched, 0⟩, ⟨emptySched, 100⟩] 1) := by
  refine ⟨by decide, by decide, ?_⟩
  intro hperm
  have := hperm.mem_iff.mpr (by decide : (⟨emptySched, 100⟩ : Individual) ∈
    claim_elitism [⟨emptySched, 50⟩] [⟨emptySched, 0⟩, ⟨emptySched, 100⟩] 1)
  revert this
  decide

/-- C6 amended: with `n_elites > 0` the elitism step prepends the
`n_elites` highest-fitness individuals of the current population (their
fitness dominates everyone left out) to the offspring with the
**positionally last** `n_elites` offspring removed — the removed ones are
whatever sits at the end of the offspring list, not the lowest-fitness
ones. -/
theorem elitism_takes_best_drops_last (population offspring : List Individual)
    (n : Nat) (h : 0 < n) :
    elitismStep population offspring n =
      selBest population n ++ offspring.take (offspring.length - n) ∧
    ∃ rest, (selBest population n ++ rest).Perm population ∧
      ∀ a ∈ selBest population n, ∀ b ∈ rest, b.fitness ≤ a.fitness := by
  constructor
  · rw [elitismStep, if_pos h]
  · refine ⟨(sortStable (fun a b => b.fitness < a.fitness) population).drop n, ?_, ?_⟩
    · rw [selBest, List.take_append_drop]
      exact sortStable_perm _ population
    · have hpw := sortStable_pairwise (fun a b : Individual => b.fitness < a.fitness)
        (by
          intro a b c h1 h2
          simp only [decide_eq_false_iff_not, not_lt] at *
          exact le_trans h2 h1)
        (by
          intro a b hab
          simp only [decide_eq_true_eq, decide_eq_false_iff_not, not_lt] at *
          exact le_of_lt hab)
        population
      rw [← List.take_append_drop n (sortStable (fun a b => b.fitness < a.fitness) population),
        List.pairwise_append] at hpw
      intro a ha b hb
      have := hpw.2.2 a ha b hb
      simpa using this

/-- Witness for C6 amended at the counterexample's concrete input. -/
theorem elitism_takes_best_drops_last_witness :
    elitismStep [⟨emptySched, 50⟩] [⟨emptySched, 0⟩, ⟨emptySched, 100⟩] 1
      = selBest [⟨emptySched, 50⟩] 1 ++
        [⟨emptySched, 0⟩, ⟨emptySched, 100⟩].take (2 - 1) ∧
    ∃ rest, (selBest [⟨emptySched, 50⟩] 1 ++ rest).Perm [⟨emptySched, 50⟩] ∧
      ∀ a ∈ selBest [⟨emptySched, 50⟩] 1, ∀ b ∈ rest, b.fitness ≤ a.fitness :=
  elitism_takes_best_drops_last [⟨emptySched, 50⟩]
    [⟨emptySched, 0⟩, ⟨emptySched, 100⟩] 1 (by norm_num)

/-! ## C7 — `quick_repair` (`src/ga/repair.py`, `ScheduleRepairer`)

`total_rounds = 2*(n_teams - 1)` is the repairer's round budget.  The
`random.randint(1, total_rounds)` fallback of `_find_available_round`
(taken only when no conflict-free round exists) is the explicit argument
`rnd`. -/

/-- `1..total_rounds` (`range(1, self.total_rounds + 1)`). -/
def roundRange (total_rounds : Nat) : List Nat :=
  (List.range total_rounds).map (· + 1)

/-- The `teams_in_round` list of `_check_one_match_per_team_per_round`:
home and away ids of every match of the round, in match order. -/
def teamsInRound (round_matches : List Match) : List Nat :=
  round_matches.foldl (fun acc m => acc ++ [m.home_team_id, m.away_team_id]) []

/-- `ScheduleRepairer._check_one_match_per_team_per_round`: in every round
no team id repeats among the participants. -/
def check_one_match_per_team_per_round (total_rounds : Nat) (s : Schedule) : Bool :=
  (roundRange total_rounds).all (fun round_num =>
    let tir := teamsInRound (s.get_matches_by_round round_num)
    tir.length == tir.dedup.length)

/-- `teams_count[tid]` of `_fix_one_match_per_round`: one per appearance
as home plus one per appearance as away. -/
def teamCount (round_matches : List Match) (tid : Nat) : Nat :=
  round_matches.foldl (fun c m =>
    c + (if m.home_team_id == tid then 1 else 0) +
      (if m.away_team_id == tid then 1 else 0)) 0

/-- `ScheduleRepairer._find_available_round`: the first round in which
neither of the match's teams plays; the random draw `rnd` if none
exists. -/
def find_available_round (total_rounds : Nat) (s : Schedule) (m : Match) (rnd : Nat) : Nat :=
  (((roundRange total_rounds).find? (fun round_num =>
    let tir := teamsInRound (s.get_matches_by_round round_num)
    decide (m.home_team_id ∉ tir ∧ m.away_team_id ∉ tir)))).getD rnd

/-- One round of `_fix_one_match_per_round`'s outer loop: if the round has
a team appearing more than once, the first match of the round involving
such a team is moved to `_find_available_round` (then `break`). -/
def fixRoundStep (total_rounds : Nat) (rnd : Nat) (s : Schedule) (round_num : Nat) : Schedule :=
  let round_matches := s.get_matches_by_round round_num
  match s.matches'.findIdx? (fun m => m.round_number == round_num &&
      (decide (1 < teamCount round_matches m.home_team_id) ||
       decide (1 < teamCount round_matches m.away_team_id))) with
  | none => s
  | some idx =>
    match s.matches'.get? idx with
    | none => s
    | some m =>
      { s with matches' := setRound s.matches' idx (find_available_round total_rounds s m rnd) }

/-- `ScheduleRepairer._fix_one_match_per_round`: clone, then one pass over
rounds `1..total_rounds`, fixing at most one match per round. -/
def fix_one_match_per_round (total_rounds : Nat) (rnd : Nat) (s : Schedule) : Schedule :=
  (roundRange total_rounds).foldl (fixRoundStep total_rounds rnd) s.clone

/-- `ScheduleRepairer.quick_repair`: clone, then a **single** application
of `_fix_one_match_per_round` — no check, no iteration. -/
def quick_repair (total_rounds : Nat) (rnd : Nat) (s : Schedule) : Schedule :=
  fix_one_match_per_round total_rounds rnd s.clone

/-- Phase 2 of `ScheduleRepairer.repair_schedule`: up to `max_iterations`
times, stop once `_check_one_match_per_team_per_round` passes, else apply
`_fix_one_match_per_round` again. -/
def phase2_loop (total_rounds : Nat) (rnd : Nat) : Nat → Schedule → Schedule
  | 0, s => s
  | max_iterations + 1, s =>
    if check_one_match_per_team_per_round total_rounds s then s
    else phase2_loop total_rounds rnd max_iterations (fix_one_match_per_round total_rounds rnd s)

/-- Team 1 triple-booked in round 1 of a 4-team (6-round) league. -/
def tripleBookedSchedule : Schedule :=
  ⟨[⟨1, 1, 2, 1, 1⟩, ⟨2, 1, 3, 1, 1⟩, ⟨3, 1, 4, 1, 1⟩], none⟩

/-- Counterexample to C7: on `tripleBookedSchedule`, `quick_repair` moves
only one of team 1's three round-1 matches (one fix per round per pass),
so its output still fails the one-match-per-round check, although the
violations are fixable within the budget — Phase 2's check-and-iterate
loop with the default `max_repair_iterations` (here 50, converging after
2 fixes) repairs the same input completely.  `quick_repair` is a single
fix pass, not the iterated Phase 2. -/
theorem quick_repair_counterexample :
    check_one_match_per_team_per_round 6 (quick_repair 6 1 tripleBookedSchedule) = false ∧
    check_one_match_per_team_per_round 6 (phase2_loop 6 1 50 tripleBookedSchedule) = true := by
  constructor
  · decide
  · decide

theorem directedMatchups_fixRoundStep (total_rounds rnd : Nat) (s : Schedule) (round_num : Nat) :
    directedMatchups (fixRoundStep total_rounds rnd s round_num) = directedMatchups s := by
  unfold fixRoundStep
  dsimp only
  split
  · rfl
  · split
    · rfl
    · simp [directedMatchups, matchKey_setRound]

/-- C7 amended: `quick_repair` is exactly **one** application of the
Phase-2 fix (`_fix_one_match_per_round`) to a clone of its input — it
performs no check and no iteration, so (unlike Phase 2 of
`repair_schedule`) its output need not satisfy the one-match-per-round
check even when the violations are fixable within
`max_repair_iterations`.  Being a pure round-reassignment, it preserves
the directed-matchup multiset. -/
theorem quick_repair_single_fix_pass (total_rounds rnd : Nat) (s : Schedule) :
    quick_repair total_rounds rnd s = fix_one_match_per_round total_rounds rnd s ∧
    directedMatchups (quick_repair total_rounds rnd s) = directedMatchups s := by
  have hfold : ∀ (rounds : List Nat) (t : Schedule),
      directedMatchups (rounds.foldl (fixRoundStep total_rounds rnd) t) = directedMatchups t := by
    intro rounds
    induction rounds with
    | nil => intro t; rfl
    | cons r rs ih =>
      intro t
      rw [List.foldl_cons, ih, directedMatchups_fixRoundStep]
  constructor
  · rw [quick_repair, Schedule.clone_eq]
  · rw [quick_repair, Schedule.clone_eq, fix_one_match_per_round, Schedule.clone_eq, hfold]

/-! ## C1 — the round-robin seeder
(`ScheduleEncoding.create_round_robin_groups`,
`PopulationInitializer.create_round_robin_schedule`) -/

/-- The rotation
`[team_indices[0]] + [team_indices[-1]] + team_indices[1:-1]`. -/
def rotateIndices (l : List Nat) : List Nat :=
  match l with
  | [] => []
  | x :: rest =>
    match rest.getLast? with
    | none => [x, x]
    | some last => x :: last :: rest.dropLast

/-- One round of the circle method: pair position `i` with position
`n-1-i`; on even-indexed rounds `(team1.id, team2.id)`, on odd-indexed
rounds swapped.  Pairs are skipped when a position holds the dummy `none`
(odd league padding). -/
def circleRound (teamsOpt : List (Option Team)) (n : Nat) (round_num : Nat)
    (team_indices : List Nat) : List (Nat × Nat) :=
  (List.range (n / 2)).filterMap (fun i =>
    match team_indices.get? i, team_indices.get? (n - 1 - i) with
    | some idx1, some idx2 =>
      match (teamsOpt.get? idx1).join, (teamsOpt.get? idx2).join with
      | some team1, some team2 =>
        if round_num % 2 == 0 then some (team1.id, team2.id) else some (team2.id, team1.id)
      | _, _ => none
    | _, _ => none)

/-- The `for round_num in range(n - 1)` loop, rotating after each round. -/
def circleLoop (teamsOpt : List (Option Team)) (n : Nat) :
    Nat → Nat → List Nat → List (List (Nat × Nat))
  | 0, _, _ => []
  | k + 1, round_num, team_indices =>
    circleRound teamsOpt n round_num team_indices ::
      circleLoop teamsOpt n k (round_num + 1) (rotateIndices team_indices)

/-- `ScheduleEncoding.create_round_robin_groups`: the first-leg rounds as
lists of `(home_id, away_id)` pairs. -/
def create_round_robin_groups (teams : List Team) : List (List (Nat × Nat)) :=
  let n0 := teams.length
  let teamsOpt := if n0 % 2 == 1 then teams.map some ++ [none] else teams.map some
  let n := if n0 % 2 == 1 then n0 + 1 else n0
  circleLoop teamsOpt n (n - 1) 0 (List.range n)

/-- `next(t for t in self.teams if t.id == team_id)`: first team with the
id (`defaultTeam` stands for the unreachable `StopIteration`). -/
def lookup_team (teams : List Team) (team_id : Nat) : Team :=
  (teams.find? (fun t => t.id == team_id)).getD defaultTeam

/-- The inner match-minting loop over one round's pairs, threading the
running `match_id`.  First leg: home/away as in the pair, stadium = home
team's stadium.  Second leg (`second_leg = true`): home/away reversed,
stadium = the new home team's stadium. -/
def buildRound (teams : List Team) (second_leg : Bool) :
    List (Nat × Nat) → Nat → Nat → List Match
  | [], _, _ => []
  | (home_id, away_id) :: rest, round_num, match_id =>
    (if second_leg then
      { id := match_id, home_team_id := away_id, away_team_id := home_id,
        stadium_id := (lookup_team teams away_id).home_stadium_id, round_number := round_num }
     else
      { id := match_id, home_team_id := home_id, away_team_id := away_id,
        stadium_id := (lookup_team teams home_id).home_stadium_id, round_number := round_num })
      :: buildRound teams second_leg rest round_num (match_id + 1)

/-- `for round_num, round_pairs in enumerate(first_leg_rounds, start)`. -/
def buildLeg (teams : List Team) (second_leg : Bool) :
    List (List (Nat × Nat)) → Nat → Nat → List Match
  | [], _, _ => []
  | round_pairs :: rest, round_num, match_id =>
    buildRound teams second_leg round_pairs round_num match_id ++
      buildLeg teams second_leg rest (round_num + 1) (match_id + round_pairs.length)

/-- `PopulationInitializer.create_round_robin_schedule`: first leg in
rounds `1..`, second leg in rounds `14..` — the start round 14 of the
second leg (`enumerate(first_leg_rounds, 14)`) is hard-coded, whatever
the league size. -/
def create_round_robin_schedule (teams : List Team) : Schedule :=
  let first_leg_rounds := create_round_robin_groups teams
  let first := buildLeg teams false first_leg_rounds 1 1
  let second := buildLeg teams true first_leg_rounds 14 (1 + first.length)
  ⟨first ++ second, none⟩

/-- Structural completeness of a seeded schedule over a team list
(invariants I1–I5 / P1–P4 of the specification). -/
def structurallyComplete (teams : List Team) (s : Schedule) : Prop :=
  s.matches'.length = teams.length * (teams.length - 1) ∧
  (∀ a ∈ teams, ∀ b ∈ teams, a ≠ b →
    (s.matches'.filter (fun m =>
      m.home_team_id == a.id && m.away_team_id == b.id)).length = 1) ∧
  (∀ m ∈ s.matches', 1 ≤ m.round_number ∧ m.round_number ≤ 2 * (teams.length - 1)) ∧
  (∀ r ∈ roundRange (2 * (teams.length - 1)),
    (s.get_matches_by_round r).length = teams.length / 2) ∧
  (∀ r ∈ roundRange (2 * (teams.length - 1)), ∀ a ∈ teams,
    ((s.get_matches_by_round r).filter (fun m => m.involves_team a.id)).length = 1) ∧
  (∀ m ∈ s.matches', ∀ a ∈ teams, a.id = m.home_team_id → m.stadium_id = a.home_stadium_id)

/-- A 4-team league. -/
def fourTeams : List Team :=
  [⟨1, "", "", "", 1⟩, ⟨2, "", "", "", 2⟩, ⟨3, "", "", "", 3⟩, ⟨4, "", "", "", 4⟩]

/-- Counterexample to C1: for an even league of `N = 4` teams the
round-robin seeder is **not** structurally complete: the second leg is
hard-coded to start at round 14, so matches land in rounds 14–16, outside
`[1, 2(N−1)] = [1, 6]` — rounds 4–6 are empty while rounds 14–16 are
full. -/
theorem round_robin_counterexample :
    2 * (fourTeams.length - 1) = 6 ∧
    (create_round_robin_schedule fourTeams).matches'.any
      (fun m => decide (2 * (fourTeams.length - 1) < m.round_number)) = true ∧
    ¬ structurallyComplete fourTeams (create_round_robin_schedule fourTeams) := by
  refine ⟨rfl, by decide, ?_⟩
  intro h
  have hm : (⟨7, 4, 1, 4, 14⟩ : Match) ∈ (create_round_robin_schedule fourTeams).matches' := by
    decide
  have := (h.2.2.1 _ hm).2
  revert this
  decide

/-- The canonical 14-team league whose team ids and stadium ids are the
indices `0..13` — running the seeder on it yields the index-level match
skeleton that any other 14-team league's output is an instance of. -/
def canonTeams : List Team := (List.range 14).map (fun k => ⟨k, "", "", "", k⟩)

def canonGroups : List (List (Nat × Nat)) := create_round_robin_groups canonTeams

set_option maxRecDepth 4000

theorem groups_embed (t0 t1 t2 t3 t4 t5 t6 t7 t8 t9 t10 t11 t12 t13 : Team) :
    create_round_robin_groups [t0, t1, t2, t3, t4, t5, t6, t7, t8, t9, t10, t11, t12, t13]
      = canonGroups.map (fun round => round.map (fun p =>
          (([t0, t1, t2, t3, t4, t5, t6, t7, t8, t9, t10, t11, t12, t13].getD p.1 defaultTeam).id,
           ([t0, t1, t2, t3, t4, t5, t6, t7, t8, t9, t10, t11, t12, t13].getD p.2 defaultTeam).id))) := by
  rw [create_round_robin_groups]
  norm_num
  rfl

theorem lookup_team_self (teams : List Team) (hn : (teams.map Team.id).Nodup)
    (t : Team) (ht : t ∈ teams) : lookup_team teams t.id = t := by
  induction teams with
  | nil => cases ht
  | cons u rest ih =>
    have hn' : u.id ∉ rest.map Team.id ∧ (rest.map Team.id).Nodup := by
      have h := hn
      rw [List.map_cons, List.nodup_cons] at h
      exact h
    rcases List.mem_cons.mp ht with heq | hmem
    · subst heq
      rw [lookup_team, List.find?_cons_of_pos _ (by simp)]
      rfl
    · by_cases hbeq : (u.id == t.id) = true
      · have hid : u.id = t.id := by simpa using hbeq
        exact absurd (hid ▸ List.mem_map_of_mem Team.id hmem) hn'.1
      · rw [lookup_team, List.find?_cons_of_neg _ (by simpa using hbeq)]
        exact ih hn'.2 hmem

def canonRRMatches : List Match := (create_round_robin_schedule canonTeams).matches'

/-- Re-tag an index-level match with a concrete team list: home/away
indices become the teams' ids, the stadium index becomes that team's home
stadium. -/
def embedMatch (ts : List Team) (m : Match) : Match :=
  { id := m.id,
    home_team_id := (ts.getD m.home_team_id defaultTeam).id,
    away_team_id := (ts.getD m.away_team_id defaultTeam).id,
    stadium_id := (ts.getD m.stadium_id defaultTeam).home_stadium_id,
    round_number := m.round_number }

theorem lookup_canon : ∀ i < 14, lookup_team canonTeams i = ⟨i, "", "", "", i⟩ := by decide

theorem getD_mem_of_lt {α : Type} (l : List α) (d : α) (i : Nat) (h : i < l.length) :
    l.getD i d ∈ l := by
  rw [List.getD_eq_getElem l d h]
  exact List.getElem_mem h

theorem buildRound_embed (ts : List Team) (hn : (ts.map Team.id).Nodup)
    (hlen : ts.length = 14) (sl : Bool) (L : List (Nat × Nat))
    (hL : ∀ p ∈ L, p.1 < 14 ∧ p.2 < 14) :
    ∀ r mid, buildRound ts sl (L.map (fun p =>
        ((ts.getD p.1 defaultTeam).id, (ts.getD p.2 defaultTeam).id))) r mid
      = (buildRound canonTeams sl L r mid).map (embedMatch ts) := by
  induction L with
  | nil => intro r mid; rfl
  | cons p rest ih =>
    intro r mid
    obtain ⟨h1, h2⟩ := hL p (List.mem_cons_self p rest)
    have e1 : lookup_team ts ((ts.getD p.1 defaultTeam).id) = ts.getD p.1 defaultTeam :=
      lookup_team_self ts hn _ (getD_mem_of_lt ts defaultTeam p.1 (by omega))
    have e2 : lookup_team ts ((ts.getD p.2 defaultTeam).id) = ts.getD p.2 defaultTeam :=
      lookup_team_self ts hn _ (getD_mem_of_lt ts defaultTeam p.2 (by omega))
    have c1 := lookup_canon p.1 h1
    have c2 := lookup_canon p.2 h2
    have htail := ih (fun q hq => hL q (List.mem_cons_of_mem p hq)) r (mid + 1)
    cases p with
    | mk i j =>
      cases sl with
      | false =>
        simp only [List.map_cons, buildRound, e1, c1, List.map_map]
        rw [htail]
        refine congrArg₂ List.cons ?_ rfl
        simp [embedMatch, c1]
      | true =>
        simp only [List.map_cons, buildRound, e2, c2, List.map_map]
        rw [htail]
        refine congrArg₂ List.cons ?_ rfl
        simp [embedMatch, c2]

theorem buildLeg_embed (ts : List Team) (hn : (ts.map Team.id).Nodup)
    (hlen : ts.length = 14) (sl : Bool) (G : List (List (Nat × Nat)))
    (hG : ∀ round ∈ G, ∀ p ∈ round, p.1 < 14 ∧ p.2 < 14) :
    ∀ r mid, buildLeg ts sl (G.map (fun round => round.map (fun p =>
        ((ts.getD p.1 defaultTeam).id, (ts.getD p.2 defaultTeam).id)))) r mid
      = (buildLeg canonTeams sl G r mid).map (embedMatch ts) := by
  induction G with
  | nil => intro r mid; rfl
  | cons round rest ih =>
    intro r mid
    simp only [List.map_cons, buildLeg, List.map_append]
    rw [buildRound_embed ts hn hlen sl round (hG round (List.mem_cons_self round rest)) r mid]
    rw [List.length_map]
    rw [ih (fun q hq => hG q (List.mem_cons_of_mem round hq)) (r + 1) (mid + round.length)]

set_option maxRecDepth 8000

theorem canon_groups_bounds : ∀ round ∈ canonGroups, ∀ p ∈ round, p.1 < 14 ∧ p.2 < 14 := by
  decide

theorem canonRRMatches_split :
    canonRRMatches = buildLeg canonTeams false canonGroups 1 1 ++
      buildLeg canonTeams true canonGroups 14
        (1 + (buildLeg canonTeams false canonGroups 1 1).length) := by
  rw [canonRRMatches, create_round_robin_schedule]
  norm_num
  rfl

theorem schedule_embed (t0 t1 t2 t3 t4 t5 t6 t7 t8 t9 t10 t11 t12 t13 : Team)
    (hn : (([t0, t1, t2, t3, t4, t5, t6, t7, t8, t9, t10, t11, t12, t13] : List Team).map
      Team.id).Nodup) :
    (create_round_robin_schedule
        [t0, t1, t2, t3, t4, t5, t6, t7, t8, t9, t10, t11, t12, t13]).matches'
      = canonRRMatches.map
          (embedMatch [t0, t1, t2, t3, t4, t5, t6, t7, t8, t9, t10, t11, t12, t13]) := by
  have hg := groups_embed t0 t1 t2 t3 t4 t5 t6 t7 t8 t9 t10 t11 t12 t13
  rw [create_round_robin_schedule]
  dsimp only
  rw [hg]
  rw [buildLeg_embed _ hn rfl false canonGroups canon_groups_bounds 1 1]
  rw [List.length_map]
  rw [buildLeg_embed _ hn rfl true canonGroups canon_groups_bounds 14 _]
  rw [canonRRMatches_split, List.map_append]

theorem canon_len : canonRRMatches.length = 182 := by decide

theorem canon_fields : ∀ m ∈ canonRRMatches,
    m.home_team_id < 14 ∧ m.away_team_id < 14 ∧ m.stadium_id = m.home_team_id ∧
    1 ≤ m.round_number ∧ m.round_number ≤ 26 := by decide

theorem canon_pairs : ∀ i < 14, ∀ j < 14, i ≠ j →
    (canonRRMatches.filter (fun m => m.home_team_id == i && m.away_team_id == j)).length = 1 := by
  decide

theorem canon_rounds : ∀ r ∈ roundRange 26,
    (canonRRMatches.filter (fun m => m.round_number == r)).length = 7 := by decide

theorem canon_involve : ∀ r ∈ roundRange 26, ∀ i < 14,
    ((canonRRMatches.filter (fun m => m.round_number == r)).filter
      (fun m => i == m.home_team_id || i == m.away_team_id)).length = 1 := by decide

theorem getD_id_inj (ts : List Team) (hn : (ts.map Team.id).Nodup) (hlen : ts.length = 14)
    (i j : Nat) (hi : i < 14) (hj : j < 14)
    (h : (ts.getD i defaultTeam).id = (ts.getD j defaultTeam).id) : i = j := by
  have hi' : i < ts.length := by omega
  have hj' : j < ts.length := by omega
  have hmi : i < (ts.map Team.id).length := by simpa using hi'
  have hmj : j < (ts.map Team.id).length := by simpa using hj'
  rw [List.getD_eq_getElem ts defaultTeam hi', List.getD_eq_getElem ts defaultTeam hj'] at h
  have hmap : (ts.map Team.id)[i] = (ts.map Team.id)[j] := by
    simpa using h
  exact hn.getElem_inj_iff.mp hmap

theorem mem_index (ts : List Team) (a : Team) (ha : a ∈ ts) :
    ∃ i, i < ts.length ∧ ts.getD i defaultTeam = a := by
  obtain ⟨i, hi, hget⟩ := List.mem_iff_getElem.mp ha
  exact ⟨i, hi, by rw [List.getD_eq_getElem ts defaultTeam hi, hget]⟩

theorem structurallyComplete_embed (ts : List Team) (hlen : ts.length = 14)
    (hn : (ts.map Team.id).Nodup) (s : Schedule)
    (hs : s.matches' = canonRRMatches.map (embedMatch ts)) :
    structurallyComplete ts s := by
  have hinj := getD_id_inj ts hn hlen
  refine ⟨?_, ?_, ?_, ?_, ?_, ?_⟩
  · rw [hs, List.length_map, canon_len, hlen]
  · -- exactly one directed matchup (a, b)
    intro a ha b hb hab
    obtain ⟨i, hi, hia⟩ := mem_index ts a ha
    obtain ⟨j, hj, hjb⟩ := mem_index ts b hb
    have hi14 : i < 14 := by omega
    have hj14 : j < 14 := by omega
    have hij : i ≠ j := fun h => hab (by rw [← hia, ← hjb, h])
    rw [hs, List.filter_map, List.length_map]
    have hcong : canonRRMatches.filter
        ((fun m => m.home_team_id == a.id && m.away_team_id == b.id) ∘ embedMatch ts)
        = canonRRMatches.filter (fun m => m.home_team_id == i && m.away_team_id == j) := by
      refine List.filter_congr ?_
      intro m hm
      obtain ⟨bh, ba, _, _⟩ := canon_fields m hm
      show ((ts.getD m.home_team_id defaultTeam).id == a.id &&
        (ts.getD m.away_team_id defaultTeam).id == b.id)
        = (m.home_team_id == i && m.away_team_id == j)
      have h1 : ((ts.getD m.home_team_id defaultTeam).id == a.id) = (m.home_team_id == i) := by
        by_cases hc : m.home_team_id = i
        · rw [hc, hia]
          simp
        · have hne : (ts.getD m.home_team_id defaultTeam).id ≠ a.id := by
            rw [← hia]
            exact fun hcc => hc (hinj _ _ bh hi14 hcc)
          rw [beq_eq_false_iff_ne.mpr hne, beq_eq_false_iff_ne.mpr hc]
      have h2 : ((ts.getD m.away_team_id defaultTeam).id == b.id) = (m.away_team_id == j) := by
        by_cases hc : m.away_team_id = j
        · rw [hc, hjb]
          simp
        · have hne : (ts.getD m.away_team_id defaultTeam).id ≠ b.id := by
            rw [← hjb]
            exact fun hcc => hc (hinj _ _ ba hj14 hcc)
          rw [beq_eq_false_iff_ne.mpr hne, beq_eq_false_iff_ne.mpr hc]
      rw [h1, h2]
    rw [hcong]
    exact canon_pairs i hi14 j hj14 hij
  · -- every round within [1, 2(N-1)]
    intro m hm
    rw [hs] at hm
    obtain ⟨cm, hcm, rfl⟩ := List.mem_map.mp hm
    obtain ⟨_, _, _, hr1, hr2⟩ := canon_fields cm hcm
    rw [hlen]
    exact ⟨hr1, by simpa [embedMatch] using hr2⟩
  · -- N/2 matches in every round
    intro r hr
    rw [hlen] at hr
    rw [Schedule.get_matches_by_round, hs, List.filter_map, List.length_map, hlen]
    have hcong : canonRRMatches.filter ((fun m => m.round_number == r) ∘ embedMatch ts)
        = canonRRMatches.filter (fun m => m.round_number == r) :=
      List.filter_congr (fun m _ => rfl)
    rw [hcong]
    exact canon_rounds r (by simpa using hr)
  · -- each team exactly once per round
    intro r hr a ha
    rw [hlen] at hr
    obtain ⟨i, hi, hia⟩ := mem_index ts a ha
    have hi14 : i < 14 := by omega
    rw [Schedule.get_matches_by_round, hs, List.filter_map]
    have hcong1 : canonRRMatches.filter ((fun m => m.round_number == r) ∘ embedMatch ts)
        = canonRRMatches.filter (fun m => m.round_number == r) :=
      List.filter_congr (fun m _ => rfl)
    rw [hcong1, List.filter_map, List.length_map]
    have hcong2 : (canonRRMatches.filter (fun m => m.round_number == r)).filter
        ((fun m => m.involves_team a.id) ∘ embedMatch ts)
        = (canonRRMatches.filter (fun m => m.round_number == r)).filter
          (fun m => i == m.home_team_id || i == m.away_team_id) := by
      refine List.filter_congr ?_
      intro m hm
      obtain ⟨bh, ba, _, _⟩ := canon_fields m (List.mem_of_mem_filter hm)
      show (a.id == (ts.getD m.home_team_id defaultTeam).id ||
        a.id == (ts.getD m.away_team_id defaultTeam).id)
        = (i == m.home_team_id || i == m.away_team_id)
      have h1 : (a.id == (ts.getD m.home_team_id defaultTeam).id) = (i == m.home_team_id) := by
        by_cases hc : i = m.home_team_id
        · rw [← hc, hia]
          simp
        · have hne : a.id ≠ (ts.getD m.home_team_id defaultTeam).id := by
            rw [← hia]
            exact fun hcc => hc (hinj _ _ hi14 bh hcc)
          rw [beq_eq_false_iff_ne.mpr hne, beq_eq_false_iff_ne.mpr hc]
      have h2 : (a.id == (ts.getD m.away_team_id defaultTeam).id) = (i == m.away_team_id) := by
        by_cases hc : i = m.away_team_id
        · rw [← hc, hia]
          simp
        · have hne : a.id ≠ (ts.getD m.away_team_id defaultTeam).id := by
            rw [← hia]
            exact fun hcc => hc (hinj _ _ hi14 ba hcc)
          rw [beq_eq_false_iff_ne.mpr hne, beq_eq_false_iff_ne.mpr hc]
      rw [h1, h2]
    rw [hcong2]
    exact canon_involve r (by simpa using hr) i hi14
  · -- stadium = home team's home stadium
    intro m hm a ha hid
    rw [hs] at hm
    obtain ⟨cm, hcm, rfl⟩ := List.mem_map.mp hm
    obtain ⟨bh, _, hst, _, _⟩ := canon_fields cm hcm
    obtain ⟨i, hi, hia⟩ := mem_index ts a ha
    have hi14 : i < 14 := by omega
    have hieq : i = cm.home_team_id := by
      apply hinj _ _ hi14 bh
      rw [hia]
      exact hid
    show (ts.getD cm.stadium_id defaultTeam).home_stadium_id = a.home_stadium_id
    rw [hst, ← hieq, hia]

/-- C1 amended: for the canonical league size `N = 14` (and any 14 teams
with distinct ids), the round-robin seeder's output is structurally
complete by construction: 182 matches, exactly one match per ordered pair
of distinct teams, every round in `[1, 26]` with exactly 7 matches and
each team appearing once, and every match at its home team's stadium.
For other even `N` this fails (see the counterexample): the second leg is
hard-coded to rounds `14..13+(N-1)`. -/
theorem round_robin_structurally_complete (teams : List Team)
    (hlen : teams.length = 14) (hn : (teams.map Team.id).Nodup) :
    structurallyComplete teams (create_round_robin_schedule teams) := by
  rcases teams with _ | ⟨t0, teams⟩
  · simp only [List.length_nil] at hlen
    omega
  rcases teams with _ | ⟨t1, teams⟩
  · simp only [List.length_cons, List.length_nil] at hlen; omega
  rcases teams with _ | ⟨t2, teams⟩
  · simp only [List.length_cons, List.length_nil] at hlen; omega
  rcases teams with _ | ⟨t3, teams⟩
  · simp only [List.length_cons, List.length_nil] at hlen; omega
  rcases teams with _ | ⟨t4, teams⟩
  · simp only [List.length_cons, List.length_nil] at hlen; omega
  rcases teams with _ | ⟨t5, teams⟩
  · simp only [List.length_cons, List.length_nil] at hlen; omega
  rcases teams with _ | ⟨t6, teams⟩
  · simp only [List.length_cons, List.length_nil] at hlen; omega
  rcases teams with _ | ⟨t7, teams⟩
  · simp only [List.length_cons, List.length_nil] at hlen; omega
  rcases teams with _ | ⟨t8, teams⟩
  · simp only [List.length_cons, List.length_nil] at hlen; omega
  rcases teams with _ | ⟨t9, teams⟩
  · simp only [List.length_cons, List.length_nil] at hlen; omega
  rcases teams with _ | ⟨t10, teams⟩
  · simp only [List.length_cons, List.length_nil] at hlen; omega
  rcases teams with _ | ⟨t11, teams⟩
  · simp only [List.length_cons, List.length_nil] at hlen; omega
  rcases teams with _ | ⟨t12, teams⟩
  · simp only [List.length_cons, List.length_nil] at hlen; omega
  rcases teams with _ | ⟨t13, teams⟩
  · simp only [List.length_cons, List.length_nil] at hlen; omega
  rcases teams with _ | ⟨t14, teams⟩
  · exact structurallyComplete_embed
      [t0, t1, t2, t3, t4, t5, t6, t7, t8, t9, t10, t11, t12, t13] rfl hn _
      (schedule_embed t0 t1 t2 t3 t4 t5 t6 t7 t8 t9 t10 t11 t12 t13 hn)
  · simp only [List.length_cons] at hlen
    omega

/-- Witness for C1 amended: the canonical 14-team league. -/
theorem round_robin_structurally_complete_witness :
    structurallyComplete canonTeams (create_round_robin_schedule canonTeams) :=
  round_robin_structurally_complete canonTeams (by decide) (by decide)
